import Mathlib

/-!
Shallow embedding of the `alg-runner` traffic dispatcher (Python) in Lean 4,
together with theorems settling the specification claims.

Conventions used throughout:
* Python floats are modelled as exact rationals (`ℚ`); transcendental
  float functions (`math.log`, `math.exp`, `**` with real exponents,
  used only by `app/utils/transformations.py`) are modelled over `ℝ`.
* Python's `float("inf")` is modelled by the two-constructor type `FDist`
  below; finite float arithmetic never produces it in the embedded code,
  it only arises from the explicit `return float('inf')` statements.
* Exceptions: code that can raise is modelled with `Option` — `none` is a
  raised exception escaping the call.  The kinematics solver can raise
  `ZeroDivisionError` (the float division at `distance.py` line 87 when
  `curr_speed + mid = 0`) and `RuntimeError` (non-positive duration in
  `_should_accelerate_to`), so `bin_search`, `should_accelerate_to` and
  `max_target_speed` return `Option ℚ`.
* Python `dict`s preserve insertion order; they are modelled as
  association lists.
-/

/-- Extended distance value: either a finite rational or the Python float
infinity produced by `_required_distance_to_speed`. -/
inductive FDist where
  | fin (d : ℚ)
  | inf
deriving DecidableEq

namespace FDist

/-- Multiplication of an extended distance by a (positive, in all uses)
rational scale factor, as in `break_distance * (1 + break_epsilon)`. -/
def scale (d : FDist) (c : ℚ) : FDist :=
  match d with
  | .fin x => .fin (x * c)
  | .inf => .inf

/-- Comparison `d ≥ q` between an extended distance and a rational, as in
`if break_distance >= max_distance`. -/
def geQ (d : FDist) (q : ℚ) : Prop :=
  match d with
  | .fin x => x ≥ q
  | .inf => True

instance : DecidablePred (fun d : FDist × ℚ => geQ d.1 d.2) := by
  intro d
  rcases d with ⟨d, q⟩
  cases d <;> simp [geQ] <;> infer_instance

instance (d : FDist) (q : ℚ) : Decidable (geQ d q) := by
  cases d <;> simp [geQ] <;> infer_instance

/-- Ordering on extended distances; used as the (stable) sort key order for
`sq_distance_from_junction`, matching IEEE float `<`/`≤` on the values the
embedded code produces. -/
def le (a b : FDist) : Prop :=
  match a, b with
  | .fin x, .fin y => x ≤ y
  | .fin _, .inf => True
  | .inf, .fin _ => False
  | .inf, .inf => True

instance : DecidableRel FDist.le := by
  intro a b
  cases a <;> cases b <;> simp [FDist.le] <;> infer_instance

end FDist

/-- Embedding of `_required_distance_to_speed` from `src/app/utils/distance.py`
(lines 44-72): constant-acceleration distance to change speed, with the
fallback that a negative `acceleration` passed together with a non-positive
`deceleration` is reused as the deceleration rate. -/
def required_distance_to_speed (curr_speed target_speed acceleration deceleration : ℚ) : FDist :=
  if target_speed = curr_speed then .fin 0
  else if target_speed > curr_speed then
    -- should_accelerate
    if acceleration ≤ 0 then .inf
    else .fin (|target_speed ^ 2 - curr_speed ^ 2| / (2 * acceleration))
  else
    -- decelerating
    if deceleration ≤ 0 then
      if acceleration < 0 then
        -- "if someone passed negative acceleration as deceleration"
        .fin (|target_speed ^ 2 - curr_speed ^ 2| / (2 * (-acceleration)))
      else .inf
    else .fin (|target_speed ^ 2 - curr_speed ^ 2| / (2 * deceleration))

/-- Embedding of the inner `bin_search` of `_should_accelerate_to`
(`src/app/utils/distance.py` lines 80-104).  The Python recursion is bounded
by `itr >= max_itr` with `itr` starting at 0 and `max_itr = 5`; here `fuel`
counts the remaining allowed iterations (initially 5), which is the same
bound.  The float division `distance_accelerating / ((curr_speed + mid) / 2)`
at line 87 raises `ZeroDivisionError` when `curr_speed + mid = 0` (for both a
finite and an infinite numerator): that is the `none` result.  When
`_required_distance_to_speed` returns infinity and the denominator is
non-zero, the disjunct `distance_accelerating > distance` of line 89 holds
for every finite `distance` (and with a positive denominator
`time_accelerating` is infinite as well), so the search recurses on the
lower half; that is the `.inf` branch below. -/
def bin_search (curr_speed duration distance acceleration deceleration epsilon : ℚ) :
    ℚ → ℚ → ℕ → Option ℚ
  | low, high, 0 => some ((low + high) / 2)
  | low, high, fuel + 1 =>
    let mid := (low + high) / 2
    if low * (1 + epsilon) > high then some mid
    else
      match required_distance_to_speed curr_speed mid acceleration deceleration with
      | .inf =>
        if curr_speed + mid = 0 then none
        else bin_search curr_speed duration distance acceleration deceleration epsilon low mid fuel
      | .fin distance_accelerating =>
        if curr_speed + mid = 0 then none
        else
          let time_accelerating := distance_accelerating / ((curr_speed + mid) / 2)
          if time_accelerating > duration ∨ distance_accelerating > distance then
            bin_search curr_speed duration distance acceleration deceleration epsilon low mid fuel
          else
            let time_cruising := duration - time_accelerating
            let distance_cruising := mid * time_cruising
            let traveled_distance := distance_accelerating + distance_cruising
            if traveled_distance < distance then
              if distance * (1 - epsilon) < traveled_distance then some mid
              else bin_search curr_speed duration distance acceleration deceleration epsilon
                mid high fuel
            else
              bin_search curr_speed duration distance acceleration deceleration epsilon
                low mid fuel

/-- Embedding of `_should_accelerate_to` (`src/app/utils/distance.py` lines
75-111): `bin_search(low=0, high=speed_limit, itr=0, max_itr=5, epsilon=0.1)`.
The source raises `RuntimeError('Duration must be positive.')` when
`duration <= 0`; like every escaping exception, that is the `none` result. -/
def should_accelerate_to (curr_speed duration distance speed_limit acceleration deceleration : ℚ) :
    Option ℚ :=
  if duration ≤ 0 then none
  else bin_search curr_speed duration distance acceleration deceleration (1/10) 0 speed_limit 5

/-- Embedding of `max_target_speed` (`src/app/utils/distance.py` lines
114-144).  The brake distance is `_required_distance_to_speed(speed_limit, 0,
deceleration=breaking)` — note the Python call leaves `acceleration` at its
default 0 — scaled by `1 + break_epsilon`; an infinite brake distance
satisfies `break_distance >= max_distance` for every float `max_distance`,
hence the `.inf` branch returns 0.  An exception raised inside
`_should_accelerate_to` propagates out of the call (`none`). -/
def max_target_speed (duration_s max_distance speed_limit curr_speed acceleration : ℚ)
    (breaking : ℚ := 0) (break_epsilon : ℚ := 1/4) : Option ℚ :=
  if duration_s ≤ 0 then some 0
  else if curr_speed < speed_limit ∧ speed_limit * duration_s < max_distance then some speed_limit
  else
    match (required_distance_to_speed speed_limit 0 0 breaking).scale (1 + break_epsilon) with
    | .inf => some 0
    | .fin break_distance =>
      if break_distance ≥ max_distance then some 0
      else
        match should_accelerate_to curr_speed duration_s (max_distance - break_distance)
            speed_limit acceleration breaking with
        | none => none
        | some target_speed => some (max 0 (min target_speed speed_limit))

/-- C5 counterexample: the claim says `required_distance_to_speed` returns ∞
whenever `v1 < v0` and `a⁻ ≤ 0`, but at `(v0, v1, a⁺, a⁻) = (2, 0, −1, 0)` the
code reuses the negative acceleration as the deceleration rate and returns the
finite distance `|0² − 2²| / (2·1) = 2`. -/
theorem required_distance_neg_accel_fallback_cex :
    required_distance_to_speed 2 0 (-1) 0 = FDist.fin 2 ∧
    required_distance_to_speed 2 0 (-1) 0 ≠ FDist.inf := by
  refine ⟨?_, ?_⟩
  · norm_num [required_distance_to_speed]
  · norm_num [required_distance_to_speed]
    simp

/-- C5 (amended): full case characterization of `required_distance_to_speed`:
0 if `v1 = v0`; ∞ if accelerating (`v1 > v0`) with `a⁺ ≤ 0`; ∞ if decelerating
(`v1 < v0`) with `a⁻ ≤ 0` and `a⁺ ≥ 0`; if decelerating with `a⁻ ≤ 0` and
`a⁺ < 0` the rate `−a⁺` is used; otherwise `|v1² − v0²| / (2·a)` with the
applicable rate. -/
theorem required_distance_to_speed_cases (v0 v1 ap am : ℚ) :
    (v1 = v0 → required_distance_to_speed v0 v1 ap am = .fin 0) ∧
    (v0 < v1 → ap ≤ 0 → required_distance_to_speed v0 v1 ap am = .inf) ∧
    (v0 < v1 → 0 < ap →
      required_distance_to_speed v0 v1 ap am = .fin (|v1 ^ 2 - v0 ^ 2| / (2 * ap))) ∧
    (v1 < v0 → am ≤ 0 → 0 ≤ ap → required_distance_to_speed v0 v1 ap am = .inf) ∧
    (v1 < v0 → am ≤ 0 → ap < 0 →
      required_distance_to_speed v0 v1 ap am = .fin (|v1 ^ 2 - v0 ^ 2| / (2 * -ap))) ∧
    (v1 < v0 → 0 < am →
      required_distance_to_speed v0 v1 ap am = .fin (|v1 ^ 2 - v0 ^ 2| / (2 * am))) := by
  refine ⟨?_, ?_, ?_, ?_, ?_, ?_⟩
  · intro h
    simp [required_distance_to_speed, h]
  · intro h1 h2
    simp [required_distance_to_speed, ne_of_gt h1, h1, h2]
  · intro h1 h2
    simp [required_distance_to_speed, ne_of_gt h1, h1, not_le.mpr h2]
  · intro h1 h2 h3
    simp [required_distance_to_speed, ne_of_lt h1, not_lt.mpr (le_of_lt h1), h2,
      not_lt.mpr h3]
  · intro h1 h2 h3
    simp [required_distance_to_speed, ne_of_lt h1, not_lt.mpr (le_of_lt h1), h2, h3]
  · intro h1 h2
    simp [required_distance_to_speed, ne_of_lt h1, not_lt.mpr (le_of_lt h1), not_le.mpr h2]

/-- C5 witness: deceleration from speed 5 to 0 at rate 3 requires
`|0² − 5²| / (2·3)` distance units. -/
theorem required_distance_to_speed_cases_witness :
    required_distance_to_speed 5 0 2 3 = .fin (|(0 : ℚ) ^ 2 - 5 ^ 2| / (2 * 3)) :=
  (required_distance_to_speed_cases 5 0 2 3).2.2.2.2.2 (by norm_num) (by norm_num)

/-- C2 counterexample: at `Δt = 0.2, d_max = 50, v_lim = 20, v_curr = 5,
a⁺ = 3, a⁻ = 3, ε = 0.25` the brake-distance guarantee fails
(`(20²/(2·3))·1.25 = 250/3 ≥ 50`) yet the fast path returns `v_lim = 20`, not
0; and at `Δt = 1, d_max = 10, v_lim = −1, v_curr = −2` the fast path returns
the negative value `−1`. -/
theorem max_target_speed_claim_cex :
    (max_target_speed (1/5) 50 20 5 3 3 (1/4) = some 20 ∧
      ((required_distance_to_speed 20 0 0 3).scale (1 + 1/4)).geQ 50) ∧
    max_target_speed 1 10 (-1) (-2) 1 1 (1/4) = some (-1) := by
  refine ⟨⟨?_, ?_⟩, ?_⟩
  · norm_num [max_target_speed, required_distance_to_speed, FDist.scale]
  · norm_num [required_distance_to_speed, FDist.scale, FDist.geQ]
  · norm_num [max_target_speed, required_distance_to_speed, FDist.scale]

/-- C2 (amended): `max_target_speed` returns 0 when `Δt ≤ 0`; whenever the
call returns a value (rather than raising, e.g. the `ZeroDivisionError` of
the inner binary search) that value lies in `[0, v_lim]` provided
`v_lim ≥ 0`; and it returns 0 whenever
`required_distance_to_speed(v_lim, 0, a⁻)·(1+ε) ≥ d_max`, provided the fast
path (`v_curr < v_lim` and `v_lim·Δt < d_max`) does not fire first. -/
theorem max_target_speed_props (dt dmax vlim vcurr ap br eps : ℚ) :
    (dt ≤ 0 → max_target_speed dt dmax vlim vcurr ap br eps = some 0) ∧
    (0 ≤ vlim → ∀ v : ℚ, max_target_speed dt dmax vlim vcurr ap br eps = some v →
      0 ≤ v ∧ v ≤ vlim) ∧
    (((required_distance_to_speed vlim 0 0 br).scale (1 + eps)).geQ dmax →
      ¬(vcurr < vlim ∧ vlim * dt < dmax) →
      max_target_speed dt dmax vlim vcurr ap br eps = some 0) := by
  refine ⟨?_, ?_, ?_⟩
  · intro h
    simp [max_target_speed, h]
  · intro h0 v hv
    unfold max_target_speed at hv
    split_ifs at hv with h1 h2
    · obtain rfl := Option.some.inj hv
      exact ⟨le_refl 0, h0⟩
    · obtain rfl := Option.some.inj hv
      exact ⟨h0, le_rfl⟩
    · rcases hscale : (required_distance_to_speed vlim 0 0 br).scale (1 + eps) with d | _ <;>
        rw [hscale] at hv <;> dsimp only at hv
      · split_ifs at hv with h3
        · obtain rfl := Option.some.inj hv
          exact ⟨le_refl 0, h0⟩
        · rcases hsat : should_accelerate_to vcurr dt (dmax - d) vlim ap br with _ | t <;>
            rw [hsat] at hv
          · exact absurd hv (by simp)
          · obtain rfl := Option.some.inj hv
            constructor
            · exact le_max_left 0 _
            · exact max_le h0 (min_le_right _ _)
      · obtain rfl := Option.some.inj hv
        exact ⟨le_refl 0, h0⟩
  · intro hge hnfast
    unfold max_target_speed
    split_ifs with h1
    · rfl
    · rcases hscale : (required_distance_to_speed vlim 0 0 br).scale (1 + eps) with d | _
      · dsimp only
        rw [hscale] at hge
        simp only [FDist.geQ] at hge
        rw [if_pos hge]
      · rfl

/-- C2 witness (literal scenario S4 of the spec): `Δt = 0.2, d_max = 1,
v_lim = 20, v_curr = 20, a⁺ = 5, a⁻ = 3, ε = 0.25` yields 0 because the
brake distance `250/3` exceeds `d_max = 1` and the fast path does not fire. -/
theorem max_target_speed_props_witness :
    max_target_speed (1/5) 1 20 20 5 3 (1/4) = some 0 :=
  (max_target_speed_props (1/5) 1 20 20 5 3 (1/4)).2.2
    (by norm_num [required_distance_to_speed, FDist.scale, FDist.geQ])
    (by norm_num)

/-- Exception path of the solver, kept in the model: a stopped car against a
zero speed limit (`Δt = 0.2, d_max = 1, v_lim = 0, v_curr = 0`) reaches the
division `0.0 / ((0 + 0) / 2)` at `distance.py` line 87 and raises
`ZeroDivisionError`, so the call returns no value. -/
theorem max_target_speed_zero_limit_raises :
    max_target_speed (1/5) 1 0 0 1 3 (1/4) = none := by
  norm_num [max_target_speed, required_distance_to_speed, FDist.scale, should_accelerate_to,
    bin_search]

/-! ## Data model (`src/app/models/schema.py`)

The geometric machinery (shapely polygons, linestrings, the STR-tree spatial
index) is not used by any verified code path and is omitted; the fields kept
below are exactly the ones the dispatch algorithms read.  `models/schema.py`
declares no `breaking` field on `Car` even though `prioq.py` line 162 reads
`car.breaking` (an `AttributeError` at runtime); that road-following phase is
outside the admission controller embedded here. -/

/-- Embedding of `Road` (`src/app/models/schema.py` lines 8-33), minus the
cached shapely `geometry`. -/
structure Road where
  id : String
  polyline : List (ℚ × ℚ) := []
  recommended_speed : ℚ
  junction_start_id : Option String := none
  junction_end_id : Option String := none
deriving DecidableEq

/-- Embedding of `Junction` (`src/app/models/schema.py` lines 44-124), minus
the polygon (used only by `is_point_inside`, i.e. the occupant check) and the
`road_connections` pseudo-roads (unused by the dispatch algorithms). -/
structure Junction where
  junction_id : String
  connected_roads_count : ℕ := 0
  connected_roads_ids : List String := []
  x : ℚ := 0
  y : ℚ := 0
  junction_size : ℚ := 1
deriving DecidableEq

/-- Embedding of `Car` (`src/app/models/schema.py` lines 127-197), minus the
runtime `next_junction` back-reference (only its stored coordinates
`next_junction_x/y` are read by the embedded code). -/
structure Car where
  car_id : String
  x : ℚ
  y : ℚ
  speed : ℚ := 0
  wheel_rotation : ℚ := 0
  rotation : ℚ := 0
  acceleration : ℚ := 0
  next_junction_id : Option String := none
  next_junction_x : Option ℚ := none
  next_junction_y : Option ℚ := none
  lane_id : Option String := none
  road_id : Option String := none
  target_road_id : Option String := none
  seconds_in_traffic : ℚ := 0
  road : Option Road := none
deriving DecidableEq

/-- Embedding of the index-locating loop of `Junction.crossing_segments_count`
(`src/app/models/schema.py` lines 112-118): `for i, road_id in
enumerate(self.connected_roads_ids)` updating `start_index` / `target_index`
(initially −1) whenever the ring entry equals the respective argument.  Road
ids are `Option String` because the dispatcher passes `car.road_id` /
`car.target_road_id`, which may be Python `None` (equal to no ring entry). -/
def scanFrom (a b : Option String) : ℕ → List String → ℤ → ℤ → ℤ × ℤ
  | _, [], s, t => (s, t)
  | i, r :: rest, s, t =>
    scanFrom a b (i + 1) rest (if some r = a then (i : ℤ) else s)
      (if some r = b then (i : ℤ) else t)

/-- Embedding of `Junction.crossing_segments_count` (`src/app/models/schema.py`
lines 87-124). -/
def Junction.crossing_segments_count (j : Junction) (start_road_id target_road_id : Option String) :
    ℕ :=
  if j.connected_roads_ids = [] then 0
  else
    let st := scanFrom start_road_id target_road_id 0 j.connected_roads_ids (-1) (-1)
    if st.1 = -1 ∨ st.2 = -1 then 0
    else if st.1 ≤ st.2 then (st.2 - st.1).toNat
    else ((j.connected_roads_ids.length : ℤ) - (st.1 - st.2)).toNat

theorem scanFrom_swap (a b : Option String) :
    ∀ (l : List String) (i : ℕ) (s t : ℤ),
      scanFrom b a i l t s = ((scanFrom a b i l s t).2, (scanFrom a b i l s t).1)
  | [], _, _, _ => rfl
  | r :: rest, i, s, t => by
    simp only [scanFrom]
    exact scanFrom_swap a b rest (i + 1) _ _

theorem scanFrom_fst_of_not_mem (a b : Option String) :
    ∀ (l : List String) (i : ℕ) (s t : ℤ), (∀ r ∈ l, some r ≠ a) →
      (scanFrom a b i l s t).1 = s
  | [], _, _, _, _ => rfl
  | r :: rest, i, s, t, h => by
    simp only [scanFrom]
    rw [if_neg (h r (List.mem_cons_self r rest))]
    exact scanFrom_fst_of_not_mem a b rest (i + 1) s _ fun x hx => h x (List.mem_cons_of_mem r hx)

theorem scanFrom_fst_of_mem (x : String) (b : Option String) :
    ∀ (l : List String) (i : ℕ) (s t : ℤ), x ∈ l →
      ∃ k, ∃ hk : k < l.length,
        (scanFrom (some x) b i l s t).1 = (i : ℤ) + k ∧ l.get ⟨k, hk⟩ = x
  | [], _, _, _, hx => absurd hx (List.not_mem_nil x)
  | r :: rest, i, s, t, hx => by
    by_cases hrest : x ∈ rest
    · obtain ⟨k, hk, h1, h2⟩ := scanFrom_fst_of_mem x b rest (i + 1)
        (if some r = some x then (i : ℤ) else s) (if some r = b then (i : ℤ) else t) hrest
      refine ⟨k + 1, by simpa using Nat.succ_lt_succ hk, ?_, by simpa using h2⟩
      simp only [scanFrom]
      rw [h1]
      push_cast
      ring
    · have hrx : r = x := by
        rcases List.mem_cons.mp hx with h | h
        · exact h.symm
        · exact absurd h hrest
      refine ⟨0, by simp, ?_, by simpa using hrx⟩
      simp only [scanFrom]
      rw [scanFrom_fst_of_not_mem (some x) b rest (i + 1) _ _
        (fun y hy h => hrest (Option.some.inj h ▸ hy))]
      rw [if_pos (by simpa using hrx)]
      simp

/-- C7 counterexample: for the junction with ring `["A", "B"]` and the pair
`a = b = "A"` (both occurring in the ring), the two crossing-segment counts
sum to 0, not to the ring length 2. -/
theorem crossing_segments_count_self_cex :
    let j : Junction := { junction_id := "J", connected_roads_ids := ["A", "B"] }
    j.crossing_segments_count (some "A") (some "A") +
      j.crossing_segments_count (some "A") (some "A") = 0 ∧
    j.connected_roads_ids.length = 2 := by
  constructor
  · rfl
  · rfl

/-- C7 (amended): for every junction and every pair of DISTINCT road ids that
both occur in the `connected_roads_ids` ring, the two crossing-segment counts
sum to the ring length. -/
theorem crossing_segments_count_sum (j : Junction) (a b : String) (hab : a ≠ b)
    (ha : a ∈ j.connected_roads_ids) (hb : b ∈ j.connected_roads_ids) :
    j.crossing_segments_count (some a) (some b) +
      j.crossing_segments_count (some b) (some a) = j.connected_roads_ids.length := by
  have hne : j.connected_roads_ids ≠ [] := List.ne_nil_of_mem ha
  obtain ⟨ka, hka, ha1, ha2⟩ :=
    scanFrom_fst_of_mem a (some b) j.connected_roads_ids 0 (-1) (-1) ha
  obtain ⟨kb, hkb, hb1, hb2⟩ :=
    scanFrom_fst_of_mem b (some a) j.connected_roads_ids 0 (-1) (-1) hb
  have hswap := scanFrom_swap (some a) (some b) j.connected_roads_ids 0 (-1) (-1)
  have hX2 : (scanFrom (some a) (some b) 0 j.connected_roads_ids (-1) (-1)).2 = (kb : ℤ) := by
    have h := congrArg Prod.fst hswap
    rw [hb1] at h
    omega
  have hX1 : (scanFrom (some a) (some b) 0 j.connected_roads_ids (-1) (-1)).1 = (ka : ℤ) := by
    rw [ha1]; omega
  have hkab : ka ≠ kb := by
    intro h
    subst h
    exact hab (ha2.symm.trans hb2)
  have key : scanFrom (some a) (some b) 0 j.connected_roads_ids (-1) (-1) = ((ka : ℤ), (kb : ℤ)) :=
    Prod.ext hX1 hX2
  have key2 : scanFrom (some b) (some a) 0 j.connected_roads_ids (-1) (-1) =
      ((kb : ℤ), (ka : ℤ)) := by
    rw [hswap, key]
  simp only [Junction.crossing_segments_count, if_neg hne]
  rw [key, key2]
  dsimp only
  have hz1 : ¬((ka : ℤ) = -1 ∨ (kb : ℤ) = -1) := by
    push_neg
    exact ⟨by omega, by omega⟩
  have hz2 : ¬((kb : ℤ) = -1 ∨ (ka : ℤ) = -1) := by
    push_neg
    exact ⟨by omega, by omega⟩
  rw [if_neg hz1, if_neg hz2]
  split_ifs <;> omega

/-- C7 witness: in the ring `["A", "B"]` the counts for the distinct pair
`(A, B)` sum to the ring length 2. -/
theorem crossing_segments_count_sum_witness :
    ({ junction_id := "J", connected_roads_ids := ["A", "B"] } :
        Junction).crossing_segments_count (some "A") (some "B") +
      ({ junction_id := "J", connected_roads_ids := ["A", "B"] } :
        Junction).crossing_segments_count (some "B") (some "A") = 2 :=
  crossing_segments_count_sum _ "A" "B" (by decide) (by simp) (by simp)

/-! ## Priority admission controller (`src/app/algorithms/prioq.py` lines 105-142)

The admission loop runs only when no car is inside the junction polygon
(`if not is_car_inside`, line 105).  Each pass re-sorts the remaining waiting
cars by `calculate_priority` descending (Python's `list.sort` is stable;
`reverse=True` keeps the original order of ties) and pops the best candidate.
The priority value of a waiting car is fixed for the duration of the loop
(`road_cars` and the un-popped cars are not mutated by it), so the score is
abstracted as a function `score : Car → K` into a linear order — in the
source it is `calculate_priority` applied to the per-road queue length and
segment count, with caller-supplied weight functions (`**kwargs`).  The
`prev_car_speed_per_road` / `prev_car_distance_per_road` bookkeeping
(lines 125, 142) only feeds the later road-following phase and carries no
influence on admission decisions; it is not modelled here. -/

/-- Descending priority order used by `waiting_cars.sort(key=..., reverse=True)`. -/
def scoreGe {K : Type} [LinearOrder K] (score : Car → K) (a b : Car) : Prop :=
  score b ≤ score a

instance {K : Type} [LinearOrder K] (score : Car → K) : DecidableRel (scoreGe score) :=
  fun a b => inferInstanceAs (Decidable (score b ≤ score a))

/-- Number of junction segments the car will occupy,
`junction.crossing_segments_count(c.road_id, c.target_road_id)`
(`src/app/algorithms/prioq.py` line 127). -/
def admissionWidth (j : Junction) (c : Car) : ℕ :=
  j.crossing_segments_count c.road_id c.target_road_id

/-- Embedding of the `while len(waiting_cars)` admission loop
(`src/app/algorithms/prioq.py` lines 116-142).  Each iteration removes one
car, so the loop runs exactly `len(waiting_cars)` times; `fuel` is that
count.  The result pairs each processed car with its new speed and an
admitted/refused flag, in processing order, together with the final
`taken_up_segments` set. -/
def admissionGo {K : Type} [LinearOrder K] (score : Car → K) (j : Junction) :
    ℕ → List Car → Finset ℕ → List (Car × ℚ × Bool) → List (Car × ℚ × Bool) × Finset ℕ
  | 0, _, taken, acc => (acc.reverse, taken)
  | fuel + 1, waiting, taken, acc =>
    match waiting.insertionSort (scoreGe score) with
    | [] => (acc.reverse, taken)
    | c :: rest =>
      let required_segments := admissionWidth j c
      if (Finset.range required_segments ∩ taken).Nonempty then
        -- some segment of range(required_segments) is already taken: refuse
        admissionGo score j fuel rest taken ((c, 0, false) :: acc)
      else
        -- admit at the road's recommended speed if it is set and non-zero
        let speed1 : ℚ := match c.road with
          | some rd => if rd.recommended_speed ≠ 0 then rd.recommended_speed else c.speed
          | none => c.speed
        admissionGo score j fuel rest (taken ∪ Finset.range required_segments)
          ((c, speed1, true) :: acc)

/-- Admission controller for one junction tick: `taken_up_segments` starts
empty (`src/app/algorithms/prioq.py` line 106). -/
def admission {K : Type} [LinearOrder K] (score : Car → K) (j : Junction)
    (waiting : List Car) : List (Car × ℚ × Bool) × Finset ℕ :=
  admissionGo score j waiting.length waiting ∅ []

/-- Union of the granted segment ranges of the admitted cars of a result
list, starting from `init`. -/
def grantedUnion (j : Junction) (l : List (Car × ℚ × Bool)) (init : Finset ℕ) : Finset ℕ :=
  l.foldl (fun s e => if e.2.2 then s ∪ Finset.range (admissionWidth j e.1) else s) init

theorem admissionGo_acc {K : Type} [LinearOrder K] (score : Car → K) (j : Junction) :
    ∀ (fuel : ℕ) (waiting : List Car) (taken : Finset ℕ) (acc : List (Car × ℚ × Bool)),
      admissionGo score j fuel waiting taken acc =
        (acc.reverse ++ (admissionGo score j fuel waiting taken []).1,
          (admissionGo score j fuel waiting taken []).2) := by
  intro fuel
  induction fuel with
  | zero => intro waiting taken acc; simp [admissionGo]
  | succ fuel ih =>
    intro waiting taken acc
    rcases hsort : waiting.insertionSort (scoreGe score) with _ | ⟨c, rest⟩ <;>
      simp only [admissionGo, hsort]
    · simp
    · split_ifs with htaken
      · rw [ih rest taken ((c, 0, false) :: acc), ih rest taken [(c, 0, false)]]
        simp
      · rw [ih rest _ ((c, _, true) :: acc), ih rest _ [(c, _, true)]]
        simp

theorem filter_flag_cons (x : Car × ℚ × Bool) (l : List (Car × ℚ × Bool)) (hx : x.2.2 = true) :
    (x :: l).filter (fun e => e.2.2) = x :: l.filter (fun e => e.2.2) :=
  List.filter_cons_of_pos hx

theorem admissionGo_disjoint {K : Type} [LinearOrder K] (score : Car → K) (j : Junction) :
    ∀ (fuel : ℕ) (waiting : List Car) (taken : Finset ℕ),
      (((admissionGo score j fuel waiting taken []).1.filter fun e => e.2.2).Pairwise
        fun e1 e2 => Disjoint (Finset.range (admissionWidth j e1.1))
          (Finset.range (admissionWidth j e2.1))) ∧
      (∀ e ∈ (admissionGo score j fuel waiting taken []).1.filter fun e => e.2.2,
        Disjoint (Finset.range (admissionWidth j e.1)) taken) := by
  intro fuel
  induction fuel with
  | zero => intro waiting taken; simp [admissionGo]
  | succ fuel ih =>
    intro waiting taken
    rcases hsort : waiting.insertionSort (scoreGe score) with _ | ⟨c, rest⟩ <;>
      simp only [admissionGo, hsort]
    · simp
    · split_ifs with htaken
      · -- refused: entry (c, 0, false) is dropped by the filter
        rw [admissionGo_acc score j fuel rest taken [(c, 0, false)]]
        simpa using ih rest taken
      · -- admitted: range of c is disjoint from taken, and future grants are
        -- disjoint from taken ∪ range
        have hdisj : Disjoint (Finset.range (admissionWidth j c)) taken := by
          rw [Finset.disjoint_iff_inter_eq_empty]
          exact Finset.not_nonempty_iff_eq_empty.mp htaken
        rw [admissionGo_acc score j fuel rest _ [(c, _, true)]]
        obtain ⟨ih1, ih2⟩ := ih rest (taken ∪ Finset.range (admissionWidth j c))
        constructor
        · simp only [List.reverse_cons, List.reverse_nil, List.nil_append,
            List.singleton_append]
          rw [filter_flag_cons _ _ rfl, List.pairwise_cons]
          refine ⟨?_, ih1⟩
          intro e he
          have h2 := ih2 e he
          rw [Finset.disjoint_union_right] at h2
          exact h2.2.symm
        · intro e he
          simp only [List.reverse_cons, List.reverse_nil, List.nil_append,
            List.singleton_append] at he
          rw [filter_flag_cons _ _ rfl] at he
          rcases List.mem_cons.mp he with he | he
          · rw [he]
            exact hdisj
          · have h2 := ih2 e he
            rw [Finset.disjoint_union_right] at h2
            exact h2.1

/-- C1: in each priority-dispatch tick at a junction with no occupant inside
the junction polygon (the only case in which the admission controller runs),
the segment ranges `{0, …, w−1}` granted to the admitted cars are pairwise
disjoint, for every priority scoring function. -/
theorem prioq_admission_granted_disjoint :
    ∀ (K : Type) [LinearOrder K] (score : Car → K) (j : Junction) (waiting : List Car),
      ((admission score j waiting).1.filter fun e => e.2.2).Pairwise
        fun e1 e2 => Disjoint (Finset.range (admissionWidth j e1.1))
          (Finset.range (admissionWidth j e2.1)) := by
  intro K _ score j waiting
  exact (admissionGo_disjoint score j waiting.length waiting ∅).1

theorem admissionGo_speed_bounds {K : Type} [LinearOrder K] (score : Car → K) (j : Junction) :
    ∀ (fuel : ℕ) (waiting : List Car) (taken : Finset ℕ),
      ∀ e ∈ (admissionGo score j fuel waiting taken []).1, ∀ rd : Road,
        e.1.road = some rd → 0 < rd.recommended_speed →
          0 ≤ e.2.1 ∧ e.2.1 ≤ rd.recommended_speed := by
  intro fuel
  induction fuel with
  | zero => intro waiting taken e he; simp [admissionGo] at he
  | succ fuel ih =>
    intro waiting taken e he rd hrd hpos
    rcases hsort : waiting.insertionSort (scoreGe score) with _ | ⟨c, rest⟩ <;>
      simp only [admissionGo, hsort] at he
    · simp at he
    · split_ifs at he with htaken
      · rw [admissionGo_acc score j fuel rest taken [(c, 0, false)]] at he
        simp only [List.reverse_cons, List.reverse_nil, List.nil_append,
          List.singleton_append, List.mem_cons] at he
        rcases he with he | he
        · rw [he]
          exact ⟨le_refl 0, le_of_lt hpos⟩
        · exact ih rest taken e he rd hrd hpos
      · rw [admissionGo_acc score j fuel rest _ [(c, _, true)]] at he
        simp only [List.reverse_cons, List.reverse_nil, List.nil_append,
          List.singleton_append, List.mem_cons] at he
        rcases he with he | he
        · subst he
          simp only at hrd ⊢
          rw [hrd]
          dsimp only
          rw [if_pos (ne_of_gt hpos)]
          exact ⟨le_of_lt hpos, le_rfl⟩
        · exact ih rest _ e he rd hrd hpos

/-- C3 (amended): every car processed by the priority admission controller —
admitted or refused in that tick — whose road is resolved with positive
recommended speed ends the admission step with `0 ≤ speed ≤
road.recommended_speed`.  The original claim over all dispatcher output is
refuted by `fifo_speed_bound_cex` below: the FIFO algorithm derives follower
speeds from the leader's speed with a floor of 1.0 and ignores road limits,
and the priority dispatcher's other phases (occupant skip, road following)
do not enforce the bound either. -/
theorem prioq_admission_speed_in_range :
    ∀ (K : Type) [inst : LinearOrder K] (score : Car → K) (j : Junction) (waiting : List Car),
      ∀ e ∈ (admission score j waiting).1, ∀ rd : Road, e.1.road = some rd →
        0 < rd.recommended_speed → 0 ≤ e.2.1 ∧ e.2.1 ≤ rd.recommended_speed := by
  intro K _ score j waiting e he rd hrd hpos
  exact admissionGo_speed_bounds score j waiting.length waiting ∅ e he rd hrd hpos

theorem admissionGo_width_zero_admitted {K : Type} [LinearOrder K] (score : Car → K)
    (j : Junction) :
    ∀ (fuel : ℕ) (waiting : List Car) (taken : Finset ℕ),
      ∀ e ∈ (admissionGo score j fuel waiting taken []).1,
        admissionWidth j e.1 = 0 → e.2.2 = true := by
  intro fuel
  induction fuel with
  | zero => intro waiting taken e he; simp [admissionGo] at he
  | succ fuel ih =>
    intro waiting taken e he hw
    rcases hsort : waiting.insertionSort (scoreGe score) with _ | ⟨c, rest⟩ <;>
      simp only [admissionGo, hsort] at he
    · simp at he
    · split_ifs at he with htaken
      · rw [admissionGo_acc score j fuel rest taken [(c, 0, false)]] at he
        simp only [List.reverse_cons, List.reverse_nil, List.nil_append,
          List.singleton_append, List.mem_cons] at he
        rcases he with he | he
        · rw [he] at hw
          simp only at hw
          rw [hw] at htaken
          simp at htaken
        · exact ih rest taken e he hw
      · rw [admissionGo_acc score j fuel rest _ [(c, _, true)]] at he
        simp only [List.reverse_cons, List.reverse_nil, List.nil_append,
          List.singleton_append, List.mem_cons] at he
        rcases he with he | he
        · rw [he]
        · exact ih rest _ e he hw

theorem grantedUnion_cons (j : Junction) (x : Car × ℚ × Bool) (l : List (Car × ℚ × Bool))
    (init : Finset ℕ) :
    grantedUnion j (x :: l) init =
      grantedUnion j l (if x.2.2 then init ∪ Finset.range (admissionWidth j x.1) else init) :=
  rfl

theorem admissionGo_taken_eq {K : Type} [LinearOrder K] (score : Car → K) (j : Junction) :
    ∀ (fuel : ℕ) (waiting : List Car) (taken : Finset ℕ),
      (admissionGo score j fuel waiting taken []).2 =
        grantedUnion j (admissionGo score j fuel waiting taken []).1 taken := by
  intro fuel
  induction fuel with
  | zero => intro waiting taken; simp [admissionGo, grantedUnion]
  | succ fuel ih =>
    intro waiting taken
    rcases hsort : waiting.insertionSort (scoreGe score) with _ | ⟨c, rest⟩ <;>
      simp only [admissionGo, hsort]
    · simp [grantedUnion]
    · split_ifs with htaken
      · rw [admissionGo_acc score j fuel rest taken [(c, 0, false)]]
        simp only [List.reverse_cons, List.reverse_nil, List.nil_append,
          List.singleton_append]
        rw [grantedUnion_cons]
        simp only [if_neg (Bool.false_ne_true)]
        exact ih rest taken
      · rw [admissionGo_acc score j fuel rest _ [(c, _, true)]]
        simp only [List.reverse_cons, List.reverse_nil, List.nil_append,
          List.singleton_append]
        rw [grantedUnion_cons]
        simp only [if_pos rfl]
        exact ih rest _

/-- C10: `crossing_segments_count` returns 0 whenever the ring is empty or
either road id does not occur in it; consequently a candidate whose required
segment range is empty is always admitted by the admission controller, and
the final `taken_up_segments` set is exactly the union of the granted ranges
of the admitted cars (so a width-0 admission marks nothing as taken). -/
theorem crossing_zero_and_empty_width_admission :
    (∀ (j : Junction) (a b : Option String), j.connected_roads_ids = [] →
      j.crossing_segments_count a b = 0) ∧
    (∀ (j : Junction) (a : String) (b : Option String), a ∉ j.connected_roads_ids →
      j.crossing_segments_count (some a) b = 0) ∧
    (∀ (j : Junction) (a : Option String) (b : String), b ∉ j.connected_roads_ids →
      j.crossing_segments_count a (some b) = 0) ∧
    (∀ (K : Type) [inst : LinearOrder K] (score : Car → K) (j : Junction) (waiting : List Car),
      ∀ e ∈ (admission score j waiting).1, admissionWidth j e.1 = 0 → e.2.2 = true) ∧
    (∀ (K : Type) [inst : LinearOrder K] (score : Car → K) (j : Junction) (waiting : List Car),
      (admission score j waiting).2 = grantedUnion j (admission score j waiting).1 ∅) := by
  refine ⟨?_, ?_, ?_, ?_, ?_⟩
  · intro j a b h
    simp [Junction.crossing_segments_count, h]
  · intro j a b h
    have hs := scanFrom_fst_of_not_mem (some a) b j.connected_roads_ids 0 (-1) (-1)
      (fun r hr hcontra => h (Option.some.inj hcontra ▸ hr))
    by_cases hring : j.connected_roads_ids = []
    · simp [Junction.crossing_segments_count, hring]
    · simp [Junction.crossing_segments_count, hring, hs]
  · intro j a b h
    have hswap := scanFrom_swap a (some b) j.connected_roads_ids 0 (-1) (-1)
    have hs : (scanFrom a (some b) 0 j.connected_roads_ids (-1) (-1)).2 = -1 := by
      have h1 := congrArg Prod.fst hswap
      simp only at h1
      rw [← h1]
      exact scanFrom_fst_of_not_mem (some b) a j.connected_roads_ids 0 (-1) (-1)
        (fun r hr hcontra => h (Option.some.inj hcontra ▸ hr))
    by_cases hring : j.connected_roads_ids = []
    · simp [Junction.crossing_segments_count, hring]
    · simp [Junction.crossing_segments_count, hring, hs]
  · intro K _ score j waiting e he hw
    exact admissionGo_width_zero_admitted score j waiting.length waiting ∅ e he hw
  · intro K _ score j waiting
    exact admissionGo_taken_eq score j waiting.length waiting ∅

/-- Sample road/car/junction fixtures for witness instantiations. -/
def sampleRoad : Road := { id := "R", recommended_speed := 10 }

def sampleCarA : Car := { car_id := "carA", x := 0, y := 0, road := some sampleRoad }

def sampleJunction : Junction := { junction_id := "J" }

/-- C3 witness: a lone candidate with a resolved road of recommended speed 10
is admitted at speed 10, which lies in `[0, 10]`. -/
theorem prioq_admission_speed_in_range_witness :
    (sampleCarA, (10 : ℚ), true) ∈
      (admission (fun _ : Car => (0 : ℚ)) sampleJunction [sampleCarA]).1 ∧
    ((0 : ℚ) ≤ 10 ∧ (10 : ℚ) ≤ 10) := by
  have hmem : (sampleCarA, (10 : ℚ), true) ∈
      (admission (fun _ : Car => (0 : ℚ)) sampleJunction [sampleCarA]).1 := by
    rw [show (admission (fun _ : Car => (0 : ℚ)) sampleJunction [sampleCarA]).1
        = [(sampleCarA, (10 : ℚ), true)] from rfl]
    exact List.mem_singleton.mpr rfl
  exact ⟨hmem, prioq_admission_speed_in_range ℚ (fun _ => 0) sampleJunction [sampleCarA]
    (sampleCarA, (10 : ℚ), true) hmem sampleRoad rfl (by norm_num [sampleRoad])⟩

/-- C10 witness: a road id that does not occur in the ring `["A"]` yields a
crossing-segment count of 0. -/
theorem crossing_zero_and_empty_width_admission_witness :
    ({ junction_id := "J", connected_roads_ids := ["A"] } : Junction).crossing_segments_count
      (some "B") (some "A") = 0 :=
  crossing_zero_and_empty_width_admission.2.1 _ "B" (some "A") (by simp)

/-! ## FIFO dispatcher (`src/app/algorithms/fifo.py`)

`fifo.py` imports `sq_distance_from_junction` from `app.algorithms.utils`;
the function (also present at `src/app/utils/distance.py` lines 4-12) returns
the squared distance from the car to its stored `next_junction_x/y`
coordinates, or float infinity when either coordinate is unset.  Python's
in-place `car.speed` mutation is modelled positionally: each junction pass
maps over the indexed car list and rewrites the speed of the cars at the
queue's follower positions.  Python's `list.sort` is stable; a stable sort's
output is determined by the comparison, so it is modelled by (stable)
insertion sort. -/

/-- Embedding of `sq_distance_from_junction` (`src/app/utils/distance.py`
lines 4-12). -/
def sq_distance_from_junction (c : Car) : FDist :=
  match c.next_junction_x, c.next_junction_y with
  | some jx, some jy => .fin ((c.x - jx) ^ 2 + (c.y - jy) ^ 2)
  | _, _ => .inf

/-- Sort order of the FIFO queue: ascending squared distance to the next
junction, over position-indexed cars. -/
def fifoLe (a b : ℕ × Car) : Prop :=
  FDist.le (sq_distance_from_junction a.2) (sq_distance_from_junction b.2)

instance : DecidableRel fifoLe :=
  fun a b => inferInstanceAs (Decidable (FDist.le _ _))

/-- Queue of a junction: the cars whose `next_junction_id` equals the
junction's id (keeping their positions in the car list), sorted by squared
distance (`src/app/algorithms/fifo.py` lines 10-11). -/
def queueOf (cars : List Car) (j : Junction) : List (ℕ × Car) :=
  (cars.enum.filter fun p => decide (p.2.next_junction_id = some j.junction_id)).insertionSort
    fifoLe

/-- Follower speed updates: the i-th follower (1-indexed) gets
`max(1.0, base_speed - i * speed_decay)` (`src/app/algorithms/fifo.py`
lines 15-16), keyed by the follower's position in the car list. -/
def assignFollowers (base_speed speed_decay : ℚ) (rest : List (ℕ × Car)) : List (ℕ × ℚ) :=
  rest.enum.map fun q => (q.2.1, max 1 (base_speed - (q.1 + 1) * speed_decay))

/-- Position lookup in the update list (the in-place mutation of the queued
car objects, replayed positionally). -/
def lookupPos (i : ℕ) : List (ℕ × ℚ) → Option ℚ
  | [] => none
  | kv :: rest => if i = kv.1 then some kv.2 else lookupPos i rest

/-- One junction iteration of the FIFO `dispatch` loop
(`src/app/algorithms/fifo.py` lines 9-16). -/
def fifo_junction_pass (speed_decay : ℚ) (cars : List Car) (j : Junction) : List Car :=
  match queueOf cars j with
  | [] => cars
  | leader :: rest =>
    let updates := assignFollowers leader.2.speed speed_decay rest
    cars.enum.map fun p =>
      match lookupPos p.1 updates with
      | some v => { p.2 with speed := v }
      | none => p.2

/-- Embedding of the FIFO `dispatch` (`src/app/algorithms/fifo.py` lines
4-16): iterate the junction pass over all junctions, threading the mutated
car list. -/
def fifo_dispatch (cars : List Car) (junctions : List Junction) (speed_decay : ℚ := 3) :
    List Car :=
  junctions.foldl (fun cs j => fifo_junction_pass speed_decay cs j) cars

theorem queueOf_keys_nodup (cars : List Car) (j : Junction) :
    ((queueOf cars j).map Prod.fst).Nodup := by
  have h1 : (cars.enum.map Prod.fst).Nodup := List.nodup_enum_map_fst cars
  have h2 : ((cars.enum.filter fun p =>
        decide (p.2.next_junction_id = some j.junction_id)).map Prod.fst).Sublist
      (cars.enum.map Prod.fst) :=
    (List.filter_sublist cars.enum).map Prod.fst
  have h3 := List.Nodup.sublist h2 h1
  exact (((List.perm_insertionSort fifoLe _).map Prod.fst).nodup_iff).mpr h3

theorem queueOf_mem {cars : List Car} {j : Junction} {e : ℕ × Car}
    (he : e ∈ queueOf cars j) : cars[e.1]? = some e.2 := by
  have h1 := ((List.perm_insertionSort fifoLe _).mem_iff).mp he
  have h2 : e ∈ cars.enum := List.mem_of_mem_filter h1
  obtain ⟨i, x⟩ := e
  exact List.mk_mem_enum_iff_getElem?.mp h2

theorem lookupPos_eq_of_getElem : ∀ (l : List (ℕ × ℚ)), (l.map Prod.fst).Nodup →
    ∀ (k : ℕ) (v : ℕ × ℚ), l[k]? = some v → lookupPos v.1 l = some v.2
  | [], _, k, v, h => by simp at h
  | a :: tl, hnod, 0, v, h => by
    rw [List.getElem?_cons_zero] at h
    obtain rfl := Option.some.inj h
    simp [lookupPos]
  | a :: tl, hnod, k + 1, v, h => by
    rw [List.getElem?_cons_succ] at h
    rw [List.map_cons, List.nodup_cons] at hnod
    have hne : v.1 ≠ a.1 := by
      intro hcontra
      apply hnod.1
      rw [← hcontra]
      exact List.mem_map_of_mem Prod.fst (List.getElem?_mem h)
    simp only [lookupPos]
    rw [if_neg hne]
    exact lookupPos_eq_of_getElem tl hnod.2 k v h

theorem lookupPos_of_not_mem : ∀ (l : List (ℕ × ℚ)) (i : ℕ), i ∉ l.map Prod.fst →
    lookupPos i l = none
  | [], _, _ => rfl
  | kv :: tl, i, h => by
    rw [List.map_cons, List.mem_cons] at h
    push_neg at h
    simp only [lookupPos]
    rw [if_neg h.1]
    exact lookupPos_of_not_mem tl i h.2

theorem assignFollowers_keys (b d : ℚ) (rest : List (ℕ × Car)) :
    (assignFollowers b d rest).map Prod.fst = rest.map Prod.fst := by
  simp only [assignFollowers, List.map_map]
  rw [show ((Prod.fst ∘ fun q : ℕ × ℕ × Car => (q.2.1, max 1 (b - (q.1 + 1) * d)))
      = Prod.fst ∘ Prod.snd) from rfl]
  rw [← List.map_map, List.enum_map_snd]

theorem assignFollowers_getElem (b d : ℚ) (rest : List (ℕ × Car)) (k : ℕ) (e : ℕ × Car)
    (h : rest[k]? = some e) :
    (assignFollowers b d rest)[k]? = some (e.1, max 1 (b - ((k : ℚ) + 1) * d)) := by
  simp [assignFollowers, List.getElem?_map, List.getElem?_enum, h]

/-- Scenario S1 fixtures: three cars at speed 8, at distances 2, 4, 6 from
junction `J1(0,0)`; a second junction `J2(10,10)` has no queue. -/
def s1CarA : Car :=
  { car_id := "A"
    x := 2
    y := 0
    speed := 8
    next_junction_id := some "J1"
    next_junction_x := some 0
    next_junction_y := some 0 }

def s1CarB : Car :=
  { car_id := "B"
    x := 4
    y := 0
    speed := 8
    next_junction_id := some "J1"
    next_junction_x := some 0
    next_junction_y := some 0 }

def s1CarC : Car :=
  { car_id := "C"
    x := 6
    y := 0
    speed := 8
    next_junction_id := some "J1"
    next_junction_x := some 0
    next_junction_y := some 0 }

def s1J1 : Junction := { junction_id := "J1", x := 0, y := 0 }

def s1J2 : Junction := { junction_id := "J2", x := 10, y := 10 }

/-- C8: in a FIFO junction pass, the queue leader (index 0 of the sorted
queue) keeps its speed and the k-th follower's output speed is
`max(1.0, leader_speed − k·speed_decay)`; and in the literal S1 scenario
(three cars at speed 8 at distances 2, 4, 6, `speed_decay = 3.0`) the
post-tick speeds are 8, 5 and 2. -/
theorem fifo_follower_speed_decay :
    (∀ (speed_decay : ℚ) (cars : List Car) (j : Junction) (k : ℕ) (ek e0 : ℕ × Car),
      (queueOf cars j)[k]? = some ek → (queueOf cars j)[0]? = some e0 →
      (fifo_junction_pass speed_decay cars j)[ek.1]? =
        some (if k = 0 then ek.2
          else { ek.2 with speed := max 1 (e0.2.speed - (k : ℚ) * speed_decay) })) ∧
    (fifo_dispatch [s1CarA, s1CarB, s1CarC] [s1J1, s1J2] 3).map Car.speed = [8, 5, 2] := by
  constructor
  · intro d cars j k ek e0 hek he0
    have hmem : ek ∈ queueOf cars j := List.getElem?_mem hek
    have hcars : cars[ek.1]? = some ek.2 := queueOf_mem hmem
    have hkeys := queueOf_keys_nodup cars j
    rcases hq : queueOf cars j with _ | ⟨leader, rest⟩
    · rw [hq] at hek
      simp at hek
    · rw [hq] at hek he0 hkeys
      rw [List.getElem?_cons_zero] at he0
      obtain rfl := Option.some.inj he0
      rw [List.map_cons, List.nodup_cons] at hkeys
      simp only [fifo_junction_pass]
      rw [hq]
      dsimp only
      rw [List.getElem?_map, List.getElem?_enum, hcars]
      simp only [Option.map_some']
      cases k with
      | zero =>
        rw [List.getElem?_cons_zero] at hek
        obtain rfl := Option.some.inj hek
        have hnone : lookupPos leader.1 (assignFollowers leader.2.speed d rest) = none := by
          apply lookupPos_of_not_mem
          rw [assignFollowers_keys]
          exact hkeys.1
        rw [hnone]
        simp
      | succ n =>
        rw [List.getElem?_cons_succ] at hek
        have hupd := assignFollowers_getElem leader.2.speed d rest n ek hek
        have hlook : lookupPos ek.1 (assignFollowers leader.2.speed d rest) =
            some (max 1 (leader.2.speed - ((n : ℚ) + 1) * d)) := by
          have hnod : ((assignFollowers leader.2.speed d rest).map Prod.fst).Nodup := by
            rw [assignFollowers_keys]
            exact hkeys.2
          exact lookupPos_eq_of_getElem _ hnod n _ hupd
        rw [hlook]
        rw [if_neg (Nat.succ_ne_zero n)]
        push_cast
        rfl
  · norm_num [fifo_dispatch, fifo_junction_pass, queueOf, assignFollowers, lookupPos, fifoLe,
      sq_distance_from_junction, s1CarA, s1CarB, s1CarC, s1J1, s1J2, List.enum, List.enumFrom,
      List.insertionSort, List.orderedInsert, FDist.le]

/-- C8 witness: in the S1 scenario the follower at queue index 1 (car B) is
assigned speed `max(1, 8 − 1·3) = 5` by the junction pass. -/
theorem fifo_follower_speed_decay_witness :
    (fifo_junction_pass 3 [s1CarA, s1CarB, s1CarC] s1J1)[1]? =
      some { s1CarB with speed := 5 } := by
  have h := fifo_follower_speed_decay.1 3 [s1CarA, s1CarB, s1CarC] s1J1 1 (1, s1CarB)
    (0, s1CarA)
    (by norm_num [queueOf, fifoLe, sq_distance_from_junction, s1CarA, s1CarB, s1CarC, s1J1,
      List.enum, List.enumFrom, List.insertionSort, List.orderedInsert, FDist.le])
    (by norm_num [queueOf, fifoLe, sq_distance_from_junction, s1CarA, s1CarB, s1CarC, s1J1,
      List.enum, List.enumFrom, List.insertionSort, List.orderedInsert, FDist.le])
  norm_num [s1CarA] at h
  exact h

/-- Fixtures for the C3 counterexample: a road with recommended speed 2 and
two cars on it at speed 8 queueing for the same junction. -/
def cexRoad : Road := { id := "R2", recommended_speed := 2 }

def cexCarA : Car :=
  { car_id := "A"
    x := 2
    y := 0
    speed := 8
    next_junction_id := some "J1"
    next_junction_x := some 0
    next_junction_y := some 0
    road_id := some "R2"
    road := some cexRoad }

def cexCarB : Car :=
  { car_id := "B"
    x := 4
    y := 0
    speed := 8
    next_junction_id := some "J1"
    next_junction_x := some 0
    next_junction_y := some 0
    road_id := some "R2"
    road := some cexRoad }

def cexJ : Junction := { junction_id := "J1", x := 0, y := 0 }

/-- C3 counterexample: a FIFO dispatch of two cars at speed 8 on a road with
`recommended_speed = 2` gives the follower output speed
`max(1, 8 − 1·3) = 5 > 2`, violating `0 ≤ speed ≤ road.recommended_speed`
even though the follower's road is resolved. -/
theorem fifo_speed_bound_cex :
    (fifo_dispatch [cexCarA, cexCarB] [cexJ] 3).map Car.speed = [8, 5] ∧
    (fifo_dispatch [cexCarA, cexCarB] [cexJ] 3).map Car.road = [some cexRoad, some cexRoad] ∧
    cexRoad.recommended_speed = 2 ∧ ¬((5 : ℚ) ≤ 2) := by
  refine ⟨?_, ?_, by norm_num [cexRoad], by norm_num⟩ <;>
    norm_num [fifo_dispatch, fifo_junction_pass, queueOf, assignFollowers, lookupPos, fifoLe,
      sq_distance_from_junction, cexCarA, cexCarB, cexJ, List.enum, List.enumFrom,
      List.insertionSort, List.orderedInsert, FDist.le]

/-! ## Scalar transforms (`src/app/utils/transformations.py`) and the
priority score (`src/app/algorithms/prioq.py` lines 8-46)

These use `math.exp` / `math.log` / float `**`, so they are modelled over
`ℝ` (Python `math.log(x, base)` computes `log x / log base`). -/

/-- Embedding of `logistic` (`src/app/utils/transformations.py` lines 3-10). -/
noncomputable def logistic (x : ℝ) (multiplier : ℝ := 1) : ℝ :=
  (1 / (1 + Real.exp (-x))) * multiplier

/-- Embedding of `linear` (`src/app/utils/transformations.py` lines 13-23). -/
def linear (x : ℝ) (multiplier : ℝ := 1) (max_value : Option ℝ := none) : ℝ :=
  match max_value with
  | none => x * multiplier
  | some m => min x m * multiplier

/-- Embedding of `exponential` (`src/app/utils/transformations.py` lines
26-38); `base ** x` on floats is real exponentiation. -/
noncomputable def exponential (x : ℝ) (base : ℝ := 2) (multiplier : ℝ := 1)
    (max_value : Option ℝ := none) : ℝ :=
  let value := base ^ x * multiplier
  match max_value with
  | none => value
  | some m => min value m

/-- Embedding of `logarithmic` (`src/app/utils/transformations.py` lines
41-51). -/
noncomputable def logarithmic (x : ℝ) (base : ℝ := 10) (multiplier : ℝ := 1) : ℝ :=
  if x ≤ 0 then 0 else (Real.log x / Real.log base) * multiplier

/-- Caller-supplied attribute weight functions (`**attribute_weight_funcs`
of `calculate_priority`); `none` means the default is used. -/
structure PriorityWeightFuncs where
  cars_in_line : Option (ℝ → ℝ) := none
  required_junction_segments : Option (ℝ → ℝ) := none
  seconds_in_traffic : Option (ℝ → ℝ) := none
  speed : Option (ℝ → ℝ) := none

/-- Combination mode of `calculate_priority`; any other string raises
`ValueError` in the source. -/
inductive CombineMode where
  | sum
  | mult

/-- Embedding of `calculate_priority` (`src/app/algorithms/prioq.py` lines
8-46).  The car argument is represented by the two fields the function
reads, `car.seconds_in_traffic` and `car.speed`, as reals. -/
noncomputable def calculate_priority (seconds_in_traffic speed : ℝ)
    (cars_in_line required_junction_segments : ℝ)
    (combine_mode : CombineMode := .sum)
    (fs : PriorityWeightFuncs := {}) : ℝ :=
  let cars_in_line_weight_func := fs.cars_in_line.getD fun x => linear x
  let required_junction_segments_weight_func :=
    fs.required_junction_segments.getD fun x => linear x 3
  let waiting_time_weight_func := fs.seconds_in_traffic.getD fun x => exponential x 2 1 (some 10)
  let speed_weight_func := fs.speed.getD fun x => logarithmic x
  let weights := [cars_in_line_weight_func cars_in_line,
    required_junction_segments_weight_func required_junction_segments,
    waiting_time_weight_func seconds_in_traffic,
    speed_weight_func speed]
  match combine_mode with
  | .sum => weights.sum
  | .mult => weights.foldl (· * ·) 1

/-- C6 counterexample: with the default weight functions and `sum` mode, the
score at speed 1/2 is strictly below the score at speed 0 (all other inputs
fixed at 0), because `logarithmic` jumps from `log10(1/2) < 0` back to 0 at
non-positive inputs — so the score is not non-decreasing in speed. -/
theorem calculate_priority_speed_monotone_cex :
    calculate_priority 0 (1/2) 0 0 .sum {} < calculate_priority 0 0 0 0 .sum {} := by
  have hlog : Real.log (1/2) / Real.log 10 < 0 :=
    div_neg_of_neg_of_pos (Real.log_neg (by norm_num) (by norm_num))
      (Real.log_pos (by norm_num))
  simp only [calculate_priority, linear, logarithmic, exponential, Option.getD_none,
    PriorityWeightFuncs.cars_in_line, PriorityWeightFuncs.required_junction_segments,
    PriorityWeightFuncs.seconds_in_traffic, PriorityWeightFuncs.speed]
  norm_num
  linarith

/-- C6 (amended): with the default attribute weight functions and
`combine_mode = "sum"`, `calculate_priority` is non-decreasing in the car's
current speed over POSITIVE speeds (`0 < s1 ≤ s2`); monotonicity fails when
the smaller speed is 0 and the larger lies in (0, 1), per the
counterexample. -/
theorem calculate_priority_monotone_in_speed (sit q segs s1 s2 : ℝ)
    (h1 : 0 < s1) (h12 : s1 ≤ s2) :
    calculate_priority sit s1 q segs .sum {} ≤ calculate_priority sit s2 q segs .sum {} := by
  have hlog10 : 0 < Real.log 10 := Real.log_pos (by norm_num)
  have hmono : logarithmic s1 ≤ logarithmic s2 := by
    have h2 : 0 < s2 := lt_of_lt_of_le h1 h12
    simp only [logarithmic, if_neg (not_le.mpr h1), if_neg (not_le.mpr h2), mul_one]
    have := Real.log_le_log h1 h12
    exact div_le_div_of_nonneg_right this hlog10.le |>.trans_eq rfl
  simp only [calculate_priority, Option.getD_none, PriorityWeightFuncs.cars_in_line,
    PriorityWeightFuncs.required_junction_segments, PriorityWeightFuncs.seconds_in_traffic,
    PriorityWeightFuncs.speed, List.sum_cons, List.sum_nil]
  have := hmono
  simp only [logarithmic] at this
  linarith

/-- C6 witness: the score at speed 1 is at most the score at speed 2 with
everything else fixed at 0. -/
theorem calculate_priority_monotone_in_speed_witness :
    calculate_priority 0 1 0 0 .sum {} ≤ calculate_priority 0 2 0 0 .sum {} :=
  calculate_priority_monotone_in_speed 0 0 0 1 2 (by norm_num) (by norm_num)

/-! ## Algorithm registry (`src/app/algorithms/__init__.py`) -/

/-- The two dispatch strategies registered in `_ALG_REGISTRY`. -/
inductive AlgKind where
  | fifo
  | priority
deriving DecidableEq

/-- Ordered association list mirroring `_ALG_REGISTRY` (lines 4-7): the keys
map to `fifo_dispatch` and `priority_dispatch` respectively. -/
def ALG_REGISTRY : List (String × AlgKind) :=
  [("fifo", AlgKind.fifo), ("priority", AlgKind.priority)]

/-- Python `dict.get(key, default)` on the registry. -/
def registryGet (key : String) : List (String × AlgKind) → Option AlgKind
  | [] => none
  | kv :: rest => if key = kv.1 then some kv.2 else registryGet key rest

/-- Python `str.lower()`, character-wise ASCII lowercasing (the registry keys
and algorithm names are ASCII; Python's full Unicode lowercasing of exotic
characters is not modelled). -/
def pyLower (s : String) : String := String.mk (s.data.map Char.toLower)

/-- Embedding of `get_algorithm` (`src/app/algorithms/__init__.py` lines
9-14): case-insensitive lookup defaulting to the FIFO dispatcher. -/
def get_algorithm (name : String) : AlgKind :=
  (registryGet (pyLower name) ALG_REGISTRY).getD AlgKind.fifo

/-- C9: algorithm lookup is case-insensitive (names with equal lowercasings
resolve to the same dispatcher), every lookup lands in the two-entry
registry, and any name whose lowercasing is neither `"fifo"` nor
`"priority"` resolves to the same dispatcher as `"fifo"` — so a dispatch
with an unknown `algorithm_name` behaves exactly like a FIFO dispatch. -/
theorem get_algorithm_case_insensitive_default_fifo :
    (∀ n1 n2 : String, pyLower n1 = pyLower n2 → get_algorithm n1 = get_algorithm n2) ∧
    (∀ n : String, get_algorithm n = AlgKind.fifo ∨ get_algorithm n = AlgKind.priority) ∧
    (∀ n : String, pyLower n ≠ "fifo" → pyLower n ≠ "priority" →
      get_algorithm n = get_algorithm "fifo") := by
  refine ⟨?_, ?_, ?_⟩
  · intro n1 n2 h
    simp only [get_algorithm, h]
  · intro n
    simp only [get_algorithm, ALG_REGISTRY, registryGet]
    split_ifs <;> simp
  · intro n h1 h2
    simp only [get_algorithm, ALG_REGISTRY, registryGet]
    rw [if_neg h1, if_neg h2]
    rfl

/-- C9 witness: the unknown name `"tsp"` of scenario S6 resolves to the FIFO
dispatcher. -/
theorem get_algorithm_unknown_witness : get_algorithm "tsp" = get_algorithm "fifo" :=
  get_algorithm_case_insensitive_default_fifo.2.2 "tsp" (by decide) (by decide)

/-! ## The `/setup` route (`src/app/routes/algorithms.py` lines 8-47)

Process state (`request.app.state`) is initialized by the `lifespan` hook of
`src/app/main.py` (empty junctions, roads and car cache, default
hyperparameters), so the `hasattr` guards of the handler are satisfied.  The
`RoadNetwork` wrapper is represented by its `roads` list (the spatial index
is derived data).  `payload.car_targets` is a JSON object; Python dicts
iterate in insertion order, modelled as an association list. -/

/-- Embedding of `CarCache` (`src/app/models/schema.py` lines 199-213). -/
structure CarCache where
  car_id : String
  seconds_in_traffic : ℚ := 0
  target_road_id : Option String := none
deriving DecidableEq

/-- Embedding of `SetupRequest` (`src/app/models/data_transfer_objects.py`
lines 20-34). -/
structure SetupRequest where
  junctions : List Junction := []
  roads : List Road := []
  car_targets : List (String × String) := []
  overwrite : Bool := false
  slowdown_zone : ℚ := 3
  slowdown_rate : ℚ := 3/10

/-- Process-wide mutable state (`app.state`), as initialized by `lifespan`
(`src/app/main.py` lines 11-19) and mutated by the `/setup` handler. -/
structure AppState where
  junctions : List Junction := []
  roads : List Road := []
  cars_cache : List CarCache := []
  slowdown_zone : ℚ := 3
  slowdown_rate : ℚ := 3/10
deriving DecidableEq

/-- Embedding of the `/setup` handler (`src/app/routes/algorithms.py` lines
8-47).  In the overwrite branch the source executes
`request.app.state.cars_cache.clear()` INSIDE the `for key, value in
payload.car_targets.items()` loop, so after the loop only the last
`(car_id, target_road_id)` pair survives; the fold below reproduces that
verbatim.  The handler returns `{"status": "success"}`. -/
def setup (st : AppState) (payload : SetupRequest) : AppState × String :=
  if payload.overwrite then
    -- hasattr-or-overwrite resets, then wholesale replacement
    let junctions1 := payload.junctions
    let roads1 := payload.roads
    -- for key, value in payload.car_targets.items():
    --     request.app.state.cars_cache.clear()
    --     request.app.state.cars_cache.append(CarCache(car_id=key, target_road_id=value))
    let cache1 := payload.car_targets.foldl
      (fun cache kv =>
        let cache := []
        cache ++ [{ car_id := kv.1, target_road_id := some kv.2 : CarCache }])
      []
    ({ junctions := junctions1, roads := roads1, cars_cache := cache1,
       slowdown_zone := payload.slowdown_zone, slowdown_rate := payload.slowdown_rate },
      "success")
  else
    ({ junctions := st.junctions ++ payload.junctions,
       roads := st.roads ++ payload.roads,
       cars_cache := st.cars_cache ++ payload.car_targets.map
         (fun kv => { car_id := kv.1, target_road_id := some kv.2 : CarCache }),
       slowdown_zone := payload.slowdown_zone, slowdown_rate := payload.slowdown_rate },
      "success")

/-- C4 (code bug): a `/setup` call with `overwrite = true` and the two car
targets `c1 ↦ r1`, `c2 ↦ r2` leaves the cache holding ONLY the last pair —
the claim (and the spec's "replace" semantics) require one entry per pair.
The append branch, the junction/road replacement, the hyperparameter storage
and the `"success"` response all behave as claimed. -/
theorem setup_overwrite_drops_all_but_last_target :
    (setup {} { overwrite := true, car_targets := [("c1", "r1"), ("c2", "r2")] }).1.cars_cache
      = [{ car_id := "c2", target_road_id := some "r2" }] ∧
    (setup {} { overwrite := true, car_targets := [("c1", "r1"), ("c2", "r2")] }).2
      = "success" ∧
    ({ car_id := "c1", target_road_id := some "r1" } : CarCache) ∉
      (setup {} { overwrite := true, car_targets := [("c1", "r1"), ("c2", "r2")] }).1.cars_cache := by
  refine ⟨rfl, rfl, ?_⟩
  rw [show (setup {} { overwrite := true, car_targets := [("c1", "r1"), ("c2", "r2")] }).1.cars_cache
      = [{ car_id := "c2", target_road_id := some "r2" }] from rfl]
  simp
